import Mathlib

/-!
Verification of the ICP payroll canister (`icp_rust_boilerplate_backend`).

Shallow embedding of `src/icp_rust_boilerplate_backend/src/lib.rs`:

* Rust `u64`/`u32` values are modelled as `Nat` (no arithmetic in the source
  can overflow upward; the one subtraction that can underflow,
  `calculate_pension_age`, is modelled explicitly with wrapping `u32`
  semantics, and a checked variant witnesses the underflow).
* Rust `f64` values (`wage_per_hour`, `total_hours`, `daily_wage`) are
  modelled as `ℚ`; the source only compares, subtracts, divides by a
  constant and multiplies them.
* The canister's four persistent regions (`ID_COUNTER`, `EMPLOYEE_STORAGE`,
  `ATTENDANCE_STORAGE`, `APPROVAL_STORAGE`) are one explicit `State` record;
  every `#[ic_cdk::update]` method becomes a function
  `args → State → result × State`.
* `ic_cdk::api::time()` is an external capability: each operation that calls
  it takes the current nanosecond timestamp `now` as an explicit argument.
* `Principal::from_text` (the wallet validator) is an external capability:
  operations take a `validWallet : String → Bool` parameter.
* Rust's `str::trim().is_empty()` (standard library, not in this repo) is
  modelled by `trimIsEmpty`: true iff every character is whitespace, which
  is exactly when trimming leading/trailing whitespace leaves the empty
  string.
-/

namespace ICP

/-- The error enum of the source (`NotFound`, `InvalidWallet`, `InvalidInput`),
each carrying a message. -/
inductive Err where
  | NotFound (msg : String)
  | InvalidWallet (msg : String)
  | InvalidInput (msg : String)
deriving DecidableEq

/-- The `ApprovalStatus` enum; `Pending` is the `#[default]` variant. -/
inductive ApprovalStatus where
  | Pending
  | Approved
  | Rejected
deriving DecidableEq

/-- The `PdfFile` struct (the `sk_file` attachment). `content : Vec<u8>` is a byte list. -/
structure PdfFile where
  id : Nat
  content : List Nat
  is_verified : Bool
  created_at : Nat
  updated_at : Option Nat
deriving DecidableEq

/-- The `Attendance` struct. -/
structure Attendance where
  check_in : Nat
  check_out : Nat
  total_hours : ℚ
  daily_wage : ℚ
deriving DecidableEq

/-- The `Employee` struct. -/
structure Employee where
  nip : Nat
  name : String
  age : Nat
  pension_age : Nat
  wage_per_hour : ℚ
  sk_file : Option PdfFile
  wallet_address : String
  created_at : Nat
  updated_at : Option Nat
deriving DecidableEq

/-- The `PayrollApproval` struct. -/
structure PayrollApproval where
  employee_nip : Nat
  attendance_date : Nat
  wage_amount : ℚ
  status : ApprovalStatus
  manager_wallet : String
deriving DecidableEq

/-- The `EmployeePayload` struct (input of `add_employee`). -/
structure EmployeePayload where
  name : String
  age : Nat
  wage_per_hour : ℚ
  wallet_address : String

instance {ε α : Type} [DecidableEq ε] [DecidableEq α] : DecidableEq (Except ε α) := fun a b =>
  match a, b with
  | Except.error e, Except.error f =>
    if h : e = f then isTrue (by subst h; rfl)
    else isFalse (by intro hc; cases hc; exact h rfl)
  | Except.error _, Except.ok _ => isFalse (by intro hc; cases hc)
  | Except.ok _, Except.error _ => isFalse (by intro hc; cases hc)
  | Except.ok x, Except.ok y =>
    if h : x = y then isTrue (by subst h; rfl)
    else isFalse (by intro hc; cases hc; exact h rfl)

/-- The four persistent regions: the `ID_COUNTER` cell and the three
`StableBTreeMap`s, modelled as partial maps. -/
structure State where
  counter : Nat
  employees : Nat → Option Employee
  attendance : Nat × Nat → Option Attendance
  approvals : Nat × Nat → Option PayrollApproval

/-- Fresh canister state: counter initialised to 0, all maps empty. -/
def initState : State :=
  { counter := 0
    employees := fun _ => none
    attendance := fun _ => none
    approvals := fun _ => none }

/-- Models `StableBTreeMap::insert` on the employee map. -/
def insertEmp (k : Nat) (v : Employee) (m : Nat → Option Employee) :
    Nat → Option Employee :=
  fun k' => if k' = k then some v else m k'

/-- Models `StableBTreeMap::insert` on the attendance map. -/
def insertAtt (k : Nat × Nat) (v : Attendance) (m : Nat × Nat → Option Attendance) :
    Nat × Nat → Option Attendance :=
  fun k' => if k' = k then some v else m k'

/-- Models `StableBTreeMap::insert` on the approval map. -/
def insertApp (k : Nat × Nat) (v : PayrollApproval)
    (m : Nat × Nat → Option PayrollApproval) : Nat × Nat → Option PayrollApproval :=
  fun k' => if k' = k then some v else m k'

/-- Modelled from the spec (Rust's `str::trim().is_empty()` is standard-library
code not in this repository): true iff the string is empty or whitespace-only,
i.e. iff trimming leading and trailing whitespace leaves the empty string. -/
def trimIsEmpty (s : String) : Bool :=
  s.data.all (fun c => c.isWhitespace)

/-- Wrapping `u32` subtraction `a - b` (release-profile Rust semantics), for
`a < 2^32`. -/
def u32Sub (a b : Nat) : Nat :=
  (a + 2 ^ 32 - b % 2 ^ 32) % 2 ^ 32

/-- Checked `u32` subtraction: `none` signals underflow (what debug-profile
Rust would panic on). -/
def u32CheckedSub (a b : Nat) : Option Nat :=
  if b ≤ a then some (a - b) else none

/-- Source `calculate_pension_age`: `60 - age` on `u32`, wrapping on underflow. -/
def calculate_pension_age (age : Nat) : Nat :=
  u32Sub 60 age

/-- Source `calculate_work_hours`: returns `0.0` when `check_out <= check_in`, else
`(check_out - check_in) as f64 / (1000.0 * 60.0 * 60.0)`. -/
def calculate_work_hours (check_in check_out : Nat) : ℚ :=
  if check_out ≤ check_in then 0
  else ((check_out - check_in : Nat) : ℚ) / (1000 * 60 * 60)

/-- Source `calculate_daily_wage`: `total_hours * wage_per_hour`. -/
def calculate_daily_wage (total_hours wage_per_hour : ℚ) : ℚ :=
  total_hours * wage_per_hour

/-- Nanoseconds per day, the divisor `24 * 60 * 60 * 1_000_000_000` used to
derive `current_date`. -/
def nanosPerDay : Nat := 24 * 60 * 60 * 1000000000

/-- Source `validate_wallet`: delegates to the external `Principal::from_text`
capability `validWallet`; returns `InvalidWallet` when it rejects.
(The parsed principal itself is discarded by every caller, so the success
value is modelled as `Unit`.) -/
def validate_wallet (validWallet : String → Bool) (wallet_address : String) :
    Except Err Unit :=
  if validWallet wallet_address then Except.ok ()
  else Except.error (Err.InvalidWallet "Invalid wallet address format")

/-- Source `add_employee(payload)`; `now` is the value `time()` would return. -/
def add_employee (now : Nat) (payload : EmployeePayload) (st : State) :
    Except Err Employee × State :=
  if trimIsEmpty payload.name = true ∨ payload.age = 0 ∨ payload.wage_per_hour ≤ 0 then
    (Except.error (Err.InvalidInput "Invalid employee data"), st)
  else
    let nip := st.counter
    let pension_age := calculate_pension_age payload.age
    let employee : Employee :=
      { nip := nip
        name := payload.name
        age := payload.age
        pension_age := pension_age
        wage_per_hour := payload.wage_per_hour
        sk_file := none
        wallet_address := payload.wallet_address
        created_at := now
        updated_at := none }
    (Except.ok employee,
      { st with
          counter := st.counter + 1
          employees := insertEmp nip employee st.employees })

/-- Source `get_employee(nip)`: pure lookup, `NotFound` when absent. -/
def get_employee (nip : Nat) (st : State) : Except Err Employee :=
  match st.employees nip with
  | some e => Except.ok e
  | none => Except.error (Err.NotFound s!"Employee with NIP={nip} not found")

/-- Source `record_attendance(nip, check_in, check_out)`; `now` is `time()`. -/
def record_attendance (now : Nat) (nip check_in check_out : Nat) (st : State) :
    Except Err Attendance × State :=
  match st.employees nip with
  | none => (Except.error (Err.NotFound s!"Employee with NIP={nip} not found"), st)
  | some employee =>
    let total_hours := calculate_work_hours check_in check_out
    if total_hours ≤ 0 then
      (Except.error (Err.InvalidInput "Invalid check-in or check-out time"), st)
    else
      let daily_wage := calculate_daily_wage total_hours employee.wage_per_hour
      let attendance : Attendance :=
        { check_in := check_in
          check_out := check_out
          total_hours := total_hours
          daily_wage := daily_wage }
      let current_date := now / nanosPerDay
      (Except.ok attendance,
        { st with attendance := insertAtt (nip, current_date) attendance st.attendance })

/-- Source `request_approval(nip, manager_wallet)`; `now` is `time()`, `validWallet`
the external wallet-text validator. -/
def request_approval (validWallet : String → Bool) (now : Nat) (nip : Nat)
    (manager_wallet : String) (st : State) : Except Err PayrollApproval × State :=
  match validate_wallet validWallet manager_wallet with
  | Except.error e => (Except.error e, st)
  | Except.ok _ =>
    let current_date := now / nanosPerDay
    match st.attendance (nip, current_date) with
    | none =>
      (Except.error (Err.NotFound s!"Attendance for NIP={nip} on current date not found"), st)
    | some attendance =>
      let approval : PayrollApproval :=
        { employee_nip := nip
          attendance_date := current_date
          wage_amount := attendance.daily_wage
          status := ApprovalStatus.Pending
          manager_wallet := manager_wallet }
      (Except.ok approval,
        { st with approvals := insertApp (nip, current_date) approval st.approvals })

/-- Source `approve_payroll(nip, date, approved)`. -/
def approve_payroll (nip date : Nat) (approved : Bool) (st : State) :
    Except Err PayrollApproval × State :=
  match st.approvals (nip, date) with
  | none =>
    (Except.error (Err.NotFound s!"Approval request for NIP={nip} on date {date} not found"), st)
  | some approval =>
    let approval2 : PayrollApproval :=
      { approval with status := if approved then ApprovalStatus.Approved else ApprovalStatus.Rejected }
    (Except.ok approval2,
      { st with approvals := insertApp (nip, date) approval2 st.approvals })

/-- A payload passing `add_employee`'s validation: non-empty trimmed name,
nonzero age, positive wage. -/
def validPayload (p : EmployeePayload) : Prop :=
  trimIsEmpty p.name = false ∧ p.age ≠ 0 ∧ 0 < p.wage_per_hour

instance (p : EmployeePayload) : Decidable (validPayload p) := by
  unfold validPayload
  infer_instance

/-- Run a list of `add_employee` calls (each with its `time()` value),
collecting the `nip`s of the successful ones. -/
def runAdds (st : State) : List (Nat × EmployeePayload) → State × List Nat
  | [] => (st, [])
  | (now, p) :: rest =>
    match add_employee now p st with
    | (Except.ok e, st2) => ((runAdds st2 rest).1, e.nip :: (runAdds st2 rest).2)
    | (Except.error _, st2) => runAdds st2 rest

/-- The employee record `add_employee` builds on success (nip is the
pre-increment counter value). -/
def mkEmployee (now : Nat) (p : EmployeePayload) (nip : Nat) : Employee :=
  { nip := nip
    name := p.name
    age := p.age
    pension_age := calculate_pension_age p.age
    wage_per_hour := p.wage_per_hour
    sk_file := none
    wallet_address := p.wallet_address
    created_at := now
    updated_at := none }

/-- The attendance record `record_attendance` builds on success. -/
def mkAttendance (check_in check_out : Nat) (emp : Employee) : Attendance :=
  { check_in := check_in
    check_out := check_out
    total_hours := calculate_work_hours check_in check_out
    daily_wage := calculate_daily_wage (calculate_work_hours check_in check_out) emp.wage_per_hour }

/-- The approval record `request_approval` builds on success. -/
def mkApproval (nip date : Nat) (att : Attendance) (w : String) : PayrollApproval :=
  { employee_nip := nip
    attendance_date := date
    wage_amount := att.daily_wage
    status := ApprovalStatus.Pending
    manager_wallet := w }

/-- Discriminator: is this result an error at all? -/
def isErr {α : Type} : Except Err α → Bool
  | Except.error _ => true
  | Except.ok _ => false

/-- Discriminator: is this result an `InvalidInput` error? -/
def isInvalidInput {α : Type} : Except Err α → Bool
  | Except.error (Err.InvalidInput _) => true
  | _ => false

/-- Discriminator: is this result an `InvalidWallet` error? -/
def isInvalidWallet {α : Type} : Except Err α → Bool
  | Except.error (Err.InvalidWallet _) => true
  | _ => false

/-- Discriminator: is this result a `NotFound` error? -/
def isNotFound {α : Type} : Except Err α → Bool
  | Except.error (Err.NotFound _) => true
  | _ => false

/-! ## Store serialization

Modelled from the spec: the source's `Storable` impls delegate to the candid
crate's `Encode!`/`Decode!` macros, code that is not part of this repository.
Per the spec (§4.1), each record type "must serialize to a deterministic byte
representation" that "round-trips byte-exact". We model this with an explicit
deterministic codec: each record is packed into a single natural number by a
bijective pairing of its fields, and that number is written as its minimal
base-256 digit string. The decoder is partial (`Option`); a decode failure is
the spec's fatal "abort" path.
-/

/-- Bijective encoding of `Int` into `Nat` (`n ↦ 2n`, `-(n+1) ↦ 2n+1`). -/
def encInt : Int → Nat
  | Int.ofNat n => 2 * n
  | Int.negSucc n => 2 * n + 1

/-- Inverse of `encInt`. -/
def decInt (n : Nat) : Int :=
  if n % 2 = 0 then Int.ofNat (n / 2) else Int.negSucc (n / 2)

/-- Bijective encoding of `List Nat` into `Nat` via iterated pairing. -/
def encList : List Nat → Nat
  | [] => 0
  | a :: l => Nat.pair a (encList l) + 1

/-- Inverse of `encList`. -/
def decList : Nat → List Nat
  | 0 => []
  | n + 1 => (Nat.unpair n).1 :: decList (Nat.unpair n).2
decreasing_by exact Nat.lt_succ_of_le (Nat.unpair_right_le _)

/-- Encoding of `ℚ` into `Nat`: numerator/denominator pair. -/
def encQ (q : ℚ) : Nat :=
  Nat.pair (encInt q.num) q.den

/-- Partial inverse of `encQ`: accepts only canonical (reduced, nonzero
denominator) numerator/denominator pairs. -/
def decQ (n : Nat) : Option ℚ :=
  let a := (Nat.unpair n).1
  let d := (Nat.unpair n).2
  if h : d ≠ 0 ∧ Nat.gcd (decInt a).natAbs d = 1 then
    some (Rat.mk' (decInt a) d h.1 (Nat.coprime_iff_gcd_eq_one.mpr h.2))
  else none

/-- Encoding of `String` into `Nat`: the list of its characters' codepoints. -/
def encString (s : String) : Nat :=
  encList (s.data.map Char.toNat)

/-- Partial inverse of `encString`: accepts only lists of valid codepoints. -/
def decString (n : Nat) : Option String :=
  let l := decList n
  if ∀ c ∈ l, Nat.isValidChar c then some (String.mk (l.map Char.ofNat)) else none

/-- Encoding of `Option` into `Nat` given an encoder for the content. -/
def encOpt {α : Type} (f : α → Nat) : Option α → Nat
  | none => 0
  | some a => f a + 1

/-- Partial inverse of `encOpt` given a partial inverse for the content. -/
def decOpt {α : Type} (g : Nat → Option α) : Nat → Option (Option α)
  | 0 => some none
  | n + 1 => (g n).map some

/-- Encoding of `Bool` into `Nat`. -/
def encBool : Bool → Nat
  | false => 0
  | true => 1

/-- Partial inverse of `encBool`. -/
def decBool (n : Nat) : Option Bool :=
  if n = 0 then some false else if n = 1 then some true else none

/-- Encoding of `ApprovalStatus` into `Nat`. -/
def encStatus : ApprovalStatus → Nat
  | ApprovalStatus.Pending => 0
  | ApprovalStatus.Approved => 1
  | ApprovalStatus.Rejected => 2

/-- Partial inverse of `encStatus`. -/
def decStatus (n : Nat) : Option ApprovalStatus :=
  if n = 0 then some ApprovalStatus.Pending
  else if n = 1 then some ApprovalStatus.Approved
  else if n = 2 then some ApprovalStatus.Rejected
  else none

/-- Pack a `PdfFile` into a single natural number. -/
def encPdfFile (p : PdfFile) : Nat :=
  Nat.pair p.id (Nat.pair (encList p.content)
    (Nat.pair (encBool p.is_verified)
      (Nat.pair p.created_at (encOpt (fun m => m) p.updated_at))))

/-- Partial inverse of `encPdfFile`. -/
def decPdfFile (n : Nat) : Option PdfFile :=
  let p1 := Nat.unpair n
  let p2 := Nat.unpair p1.2
  let p3 := Nat.unpair p2.2
  let p4 := Nat.unpair p3.2
  (decBool p3.1).bind fun b =>
    (decOpt some p4.2).bind fun u =>
      some { id := p1.1
             content := decList p2.1
             is_verified := b
             created_at := p4.1
             updated_at := u }

/-- Pack an `Employee` into a single natural number. -/
def encEmployee (e : Employee) : Nat :=
  Nat.pair e.nip (Nat.pair (encString e.name)
    (Nat.pair e.age (Nat.pair e.pension_age
      (Nat.pair (encQ e.wage_per_hour)
        (Nat.pair (encOpt encPdfFile e.sk_file)
          (Nat.pair (encString e.wallet_address)
            (Nat.pair e.created_at (encOpt (fun m => m) e.updated_at))))))))

/-- Partial inverse of `encEmployee`. -/
def decEmployee (n : Nat) : Option Employee :=
  let p1 := Nat.unpair n
  let p2 := Nat.unpair p1.2
  let p3 := Nat.unpair p2.2
  let p4 := Nat.unpair p3.2
  let p5 := Nat.unpair p4.2
  let p6 := Nat.unpair p5.2
  let p7 := Nat.unpair p6.2
  let p8 := Nat.unpair p7.2
  (decString p2.1).bind fun nm =>
    (decQ p5.1).bind fun w =>
      (decOpt decPdfFile p6.1).bind fun sk =>
        (decString p7.1).bind fun wa =>
          (decOpt some p8.2).bind fun u =>
            some { nip := p1.1
                   name := nm
                   age := p3.1
                   pension_age := p4.1
                   wage_per_hour := w
                   sk_file := sk
                   wallet_address := wa
                   created_at := p8.1
                   updated_at := u }

/-- Pack an `Attendance` into a single natural number. -/
def encAttendance (a : Attendance) : Nat :=
  Nat.pair a.check_in (Nat.pair a.check_out
    (Nat.pair (encQ a.total_hours) (encQ a.daily_wage)))

/-- Partial inverse of `encAttendance`. -/
def decAttendance (n : Nat) : Option Attendance :=
  let p1 := Nat.unpair n
  let p2 := Nat.unpair p1.2
  let p3 := Nat.unpair p2.2
  (decQ p3.1).bind fun th =>
    (decQ p3.2).bind fun dw =>
      some { check_in := p1.1
             check_out := p2.1
             total_hours := th
             daily_wage := dw }

/-- Pack a `PayrollApproval` into a single natural number. -/
def encApproval (a : PayrollApproval) : Nat :=
  Nat.pair a.employee_nip (Nat.pair a.attendance_date
    (Nat.pair (encQ a.wage_amount)
      (Nat.pair (encStatus a.status) (encString a.manager_wallet))))

/-- Partial inverse of `encApproval`. -/
def decApproval (n : Nat) : Option PayrollApproval :=
  let p1 := Nat.unpair n
  let p2 := Nat.unpair p1.2
  let p3 := Nat.unpair p2.2
  let p4 := Nat.unpair p3.2
  (decQ p3.1).bind fun w =>
    (decStatus p4.1).bind fun stt =>
      (decString p4.2).bind fun mw =>
        some { employee_nip := p1.1
               attendance_date := p2.1
               wage_amount := w
               status := stt
               manager_wallet := mw }

/-- Write a natural number as its minimal little-endian base-256 digit
string (the byte representation). -/
def natToBytes (n : Nat) : List Nat :=
  Nat.digits 256 n

/-- A byte string is canonical when every element is a byte and there is no
redundant trailing zero digit. -/
def canonicalBytes (bytes : List Nat) : Prop :=
  (∀ b ∈ bytes, b < 256) ∧ bytes.getLast? ≠ some 0

instance (bytes : List Nat) : Decidable (canonicalBytes bytes) := by
  unfold canonicalBytes
  infer_instance

/-- Partial inverse of `natToBytes`: accepts exactly the canonical byte
strings. -/
def bytesToNat (bytes : List Nat) : Option Nat :=
  if canonicalBytes bytes then some (Nat.ofDigits 256 bytes) else none

/-- Models `Storable::to_bytes` for `Employee` (modelled from the spec). -/
def toBytesEmployee (e : Employee) : List Nat :=
  natToBytes (encEmployee e)

/-- Models `Storable::from_bytes` for `Employee` (modelled from the spec); `none` is
the fatal decode-failure path. -/
def fromBytesEmployee (bytes : List Nat) : Option Employee :=
  (bytesToNat bytes).bind decEmployee

/-- Models `Storable::to_bytes` for `Attendance` (modelled from the spec). -/
def toBytesAttendance (a : Attendance) : List Nat :=
  natToBytes (encAttendance a)

/-- Models `Storable::from_bytes` for `Attendance` (modelled from the spec). -/
def fromBytesAttendance (bytes : List Nat) : Option Attendance :=
  (bytesToNat bytes).bind decAttendance

/-- Models `Storable::to_bytes` for `PayrollApproval` (modelled from the spec). -/
def toBytesApproval (a : PayrollApproval) : List Nat :=
  natToBytes (encApproval a)

/-- Models `Storable::from_bytes` for `PayrollApproval` (modelled from the spec). -/
def fromBytesApproval (bytes : List Nat) : Option PayrollApproval :=
  (bytesToNat bytes).bind decApproval

/-! ## Concrete fixtures

Small concrete values used to evaluate the operations and the codec on
explicit inputs.
-/

/-- A valid concrete payload: name "Alice", age 30, wage 10/hour. -/
def payloadA : EmployeePayload :=
  { name := "Alice", age := 30, wage_per_hour := 10, wallet_address := "w" }

/-- The employee record stored at nip 0 in `stA`. -/
def empA : Employee :=
  { nip := 0
    name := "Alice"
    age := 30
    pension_age := 30
    wage_per_hour := 10
    sk_file := none
    wallet_address := "w"
    created_at := 0
    updated_at := none }

/-- A state holding exactly employee `empA` under nip 0, counter already at 1. -/
def stA : State :=
  { counter := 1
    employees := insertEmp 0 empA (fun _ => none)
    attendance := fun _ => none
    approvals := fun _ => none }

/-- A concrete attendance record: one hour (in the source's ms-per-hour
divisor units) at wage 10. -/
def attA : Attendance :=
  { check_in := 0, check_out := 3600000, total_hours := 1, daily_wage := 10 }

/-- `stA` with `attA` recorded for (nip 0, day 0). -/
def stB : State :=
  { stA with attendance := insertAtt (0, 0) attA stA.attendance }

/-- A concrete pending approval for (nip 0, day 0). -/
def aprA : PayrollApproval :=
  { employee_nip := 0
    attendance_date := 0
    wage_amount := 10
    status := ApprovalStatus.Pending
    manager_wallet := "m" }

/-- `stB` with `aprA` stored for (nip 0, day 0). -/
def stC : State :=
  { stB with approvals := insertApp (0, 0) aprA stB.approvals }

/-- The all-default `Employee` value (all fields zero, empty or `none`). -/
def empZero : Employee :=
  { nip := 0
    name := ""
    age := 0
    pension_age := 0
    wage_per_hour := 0
    sk_file := none
    wallet_address := ""
    created_at := 0
    updated_at := none }

/-- The all-default `Attendance` value. -/
def attZero : Attendance :=
  { check_in := 0, check_out := 0, total_hours := 0, daily_wage := 0 }

/-- The all-default `PayrollApproval` value. -/
def aprZero : PayrollApproval :=
  { employee_nip := 0
    attendance_date := 0
    wage_amount := 0
    status := ApprovalStatus.Pending
    manager_wallet := "" }

/-- A two-hour attendance record at wage 10 (first call of the overwrite
scenario). -/
def att1 : Attendance :=
  { check_in := 0, check_out := 7200000, total_hours := 2, daily_wage := 20 }

/-- The approval `aprA` after rejection. -/
def aprRej : PayrollApproval :=
  { aprA with status := ApprovalStatus.Rejected }

/-- The approval `aprA` after approval. -/
def aprApp : PayrollApproval :=
  { aprA with status := ApprovalStatus.Approved }

/-- `stC` but with the stored approval already Rejected. -/
def stD : State :=
  { stC with approvals := insertApp (0, 0) aprRej stC.approvals }

/-- A payload with age 61: passes validation, underflows `pension_age`. -/
def pAge61 : EmployeePayload :=
  { name := "Bob", age := 61, wage_per_hour := 1, wallet_address := "w" }

/-- The employee minted from `pAge61` at counter 0 and time 0: its
`pension_age` is the wrapped value `2^32 - 1`. -/
def empB61 : Employee :=
  { nip := 0
    name := "Bob"
    age := 61
    pension_age := 4294967295
    wage_per_hour := 1
    sk_file := none
    wallet_address := "w"
    created_at := 0
    updated_at := none }

/-- An invalid payload (empty name, zero age, non-positive wage). -/
def badPayload : EmployeePayload :=
  { name := "", age := 0, wage_per_hour := 0, wallet_address := "" }

/-! ## Codec round-trip lemmas
-/

/-- Decoding inverts the integer encoding. -/
theorem decInt_encInt (z : Int) : decInt (encInt z) = z := by
  cases z with
  | ofNat n =>
    show decInt (2 * n) = Int.ofNat n
    unfold decInt
    rw [if_pos (by omega)]
    have h2 : (2 * n) / 2 = n := by omega
    rw [h2]
  | negSucc n =>
    show decInt (2 * n + 1) = Int.negSucc n
    unfold decInt
    rw [if_neg (by omega)]
    have h2 : (2 * n + 1) / 2 = n := by omega
    rw [h2]

/-- Encoding inverts the integer decoding. -/
theorem encInt_decInt (n : Nat) : encInt (decInt n) = n := by
  unfold decInt
  by_cases h : n % 2 = 0
  · simp only [h, if_true, encInt]
    omega
  · simp only [h, if_false, encInt]
    omega

/-- Decoding inverts the list encoding. -/
theorem decList_encList (l : List Nat) : decList (encList l) = l := by
  induction l with
  | nil => simp [encList, decList]
  | cons a l ih => simp [encList, decList, Nat.unpair_pair, ih]

/-- Encoding inverts the list decoding. -/
theorem encList_decList (n : Nat) : encList (decList n) = n := by
  induction n using Nat.strong_induction_on with
  | _ n ih =>
    match n with
    | 0 => simp [decList, encList]
    | m + 1 =>
      have hlt : (Nat.unpair m).2 < m + 1 := Nat.lt_succ_of_le (Nat.unpair_right_le m)
      simp [decList, encList, ih _ hlt, Nat.pair_unpair]

/-- Decoding inverts the rational encoding. -/
theorem decQ_encQ (q : ℚ) : decQ (encQ q) = some q := by
  unfold decQ encQ
  simp only [Nat.unpair_pair, decInt_encInt]
  rw [dif_pos ⟨q.den_nz, Nat.coprime_iff_gcd_eq_one.mp q.reduced⟩]

/-- Encoding inverts the rational decoding where the latter succeeds. -/
theorem encQ_decQ {n : Nat} {q : ℚ} (h : decQ n = some q) : encQ q = n := by
  simp only [decQ] at h
  split_ifs at h with hc
  · obtain rfl := Option.some.inj h
    unfold encQ
    simp [encInt_decInt, Nat.pair_unpair]

/-- Every character of a string has a valid codepoint. -/
theorem valid_toNat (c : Char) : Nat.isValidChar c.toNat := c.valid

/-- Converting a valid codepoint to a character and back is the identity. -/
theorem toNat_ofNat_of_valid {n : Nat} (h : Nat.isValidChar n) :
    (Char.ofNat n).toNat = n := by
  unfold Char.ofNat
  rw [dif_pos h]
  rfl

/-- Round trip on the character lists underlying strings. -/
theorem map_ofNat_toNat (l : List Char) :
    (l.map Char.toNat).map Char.ofNat = l := by
  induction l with
  | nil => rfl
  | cons c l ih => simp [Char.ofNat_toNat, ih]

/-- Round trip on lists of valid codepoints. -/
theorem map_toNat_ofNat {l : List Nat} (hv : ∀ c ∈ l, Nat.isValidChar c) :
    (l.map Char.ofNat).map Char.toNat = l := by
  induction l with
  | nil => rfl
  | cons c l ih =>
    have hc := hv c (List.mem_cons_self c l)
    have hl : ∀ x ∈ l, Nat.isValidChar x := fun x hx => hv x (List.mem_cons_of_mem c hx)
    simp [toNat_ofNat_of_valid hc, ih hl]

/-- Decoding inverts the string encoding. -/
theorem decString_encString (s : String) : decString (encString s) = some s := by
  unfold decString encString
  rw [decList_encList]
  rw [if_pos]
  · rw [map_ofNat_toNat]
  · intro c hc
    obtain ⟨ch, _, rfl⟩ := List.mem_map.mp hc
    exact valid_toNat ch

/-- Encoding inverts the string decoding where the latter succeeds. -/
theorem encString_decString {n : Nat} {s : String} (h : decString n = some s) :
    encString s = n := by
  simp only [decString] at h
  split_ifs at h with hv
  · obtain rfl := Option.some.inj h
    unfold encString
    show encList (((decList n).map Char.ofNat).map Char.toNat) = n
    rw [map_toNat_ofNat hv]
    exact encList_decList n

/-- Decoding inverts the option encoding, given inverses for the content. -/
theorem decOpt_encOpt {α : Type} {f : α → Nat} {g : Nat → Option α}
    (hfg : ∀ a, g (f a) = some a) (o : Option α) :
    decOpt g (encOpt f o) = some o := by
  cases o with
  | none => rfl
  | some a => simp [encOpt, decOpt, hfg a]

/-- Encoding inverts the option decoding, given inverses for the content. -/
theorem encOpt_decOpt {α : Type} {f : α → Nat} {g : Nat → Option α}
    (hgf : ∀ m a, g m = some a → f a = m) {n : Nat} {o : Option α}
    (h : decOpt g n = some o) : encOpt f o = n := by
  cases n with
  | zero =>
    obtain rfl : (none : Option α) = o := by
      simpa [decOpt] using h
    rfl
  | succ m =>
    simp only [decOpt, Option.map_eq_some'] at h
    obtain ⟨a, hga, rfl⟩ := h
    simp [encOpt, hgf m a hga]

/-- Decoding inverts the boolean encoding. -/
theorem decBool_encBool (b : Bool) : decBool (encBool b) = some b := by
  cases b <;> rfl

/-- Encoding inverts the boolean decoding where the latter succeeds. -/
theorem encBool_decBool {n : Nat} {b : Bool} (h : decBool n = some b) :
    encBool b = n := by
  unfold decBool at h
  split_ifs at h with h0 h1
  · obtain rfl := Option.some.inj h
    simp [encBool, h0]
  · obtain rfl := Option.some.inj h
    simp [encBool, h1]

/-- Decoding inverts the status encoding. -/
theorem decStatus_encStatus (s : ApprovalStatus) : decStatus (encStatus s) = some s := by
  cases s <;> rfl

/-- Encoding inverts the status decoding where the latter succeeds. -/
theorem encStatus_decStatus {n : Nat} {s : ApprovalStatus}
    (h : decStatus n = some s) : encStatus s = n := by
  unfold decStatus at h
  split_ifs at h with h0 h1 h2
  · obtain rfl := Option.some.inj h
    simp [encStatus, h0]
  · obtain rfl := Option.some.inj h
    simp [encStatus, h1]
  · obtain rfl := Option.some.inj h
    simp [encStatus, h2]

/-- Decoding inverts the `PdfFile` packing. -/
theorem decPdfFile_encPdfFile (p : PdfFile) : decPdfFile (encPdfFile p) = some p := by
  obtain ⟨i, ct, iv, ca, ua⟩ := p
  simp [encPdfFile, decPdfFile, Nat.unpair_pair, decBool_encBool, decList_encList,
    decOpt_encOpt (g := some) (f := fun m => m) (fun a => rfl)]

/-- Packing inverts the `PdfFile` decoding where the latter succeeds. -/
theorem encPdfFile_decPdfFile {n : Nat} {p : PdfFile} (h : decPdfFile n = some p) :
    encPdfFile p = n := by
  simp only [decPdfFile, Option.bind_eq_some] at h
  obtain ⟨b, hb, u, hu, hp⟩ := h
  obtain rfl := Option.some.inj hp
  simp [encPdfFile, encBool_decBool hb, encList_decList,
    encOpt_decOpt (g := some) (f := fun m => m)
      (fun m a ha => (Option.some.inj ha).symm) hu,
    Nat.pair_unpair]

/-- Decoding inverts the `Employee` packing. -/
theorem decEmployee_encEmployee (e : Employee) : decEmployee (encEmployee e) = some e := by
  obtain ⟨n0, nm, ag, pa, w, sk, wa, ca, ua⟩ := e
  simp [encEmployee, decEmployee, Nat.unpair_pair, decString_encString, decQ_encQ,
    decOpt_encOpt (g := decPdfFile) (f := encPdfFile) decPdfFile_encPdfFile,
    decOpt_encOpt (g := some) (f := fun m => m) (fun a => rfl)]

/-- Packing inverts the `Employee` decoding where the latter succeeds. -/
theorem encEmployee_decEmployee {n : Nat} {e : Employee} (h : decEmployee n = some e) :
    encEmployee e = n := by
  simp only [decEmployee, Option.bind_eq_some] at h
  obtain ⟨nm, hnm, w, hw, sk, hsk, wa, hwa, u, hu, he⟩ := h
  obtain rfl := Option.some.inj he
  simp [encEmployee, encString_decString hnm, encQ_decQ hw,
    encOpt_decOpt (g := decPdfFile) (f := encPdfFile)
      (fun m a ha => encPdfFile_decPdfFile ha) hsk,
    encString_decString hwa,
    encOpt_decOpt (g := some) (f := fun m => m)
      (fun m a ha => (Option.some.inj ha).symm) hu,
    Nat.pair_unpair]

/-- Decoding inverts the `Attendance` packing. -/
theorem decAttendance_encAttendance (a : Attendance) :
    decAttendance (encAttendance a) = some a := by
  obtain ⟨ci, co, th, dw⟩ := a
  simp [encAttendance, decAttendance, Nat.unpair_pair, decQ_encQ]

/-- Packing inverts the `Attendance` decoding where the latter succeeds. -/
theorem encAttendance_decAttendance {n : Nat} {a : Attendance}
    (h : decAttendance n = some a) : encAttendance a = n := by
  simp only [decAttendance, Option.bind_eq_some] at h
  obtain ⟨th, hth, dw, hdw, ha⟩ := h
  obtain rfl := Option.some.inj ha
  simp [encAttendance, encQ_decQ hth, encQ_decQ hdw, Nat.pair_unpair]

/-- Decoding inverts the `PayrollApproval` packing. -/
theorem decApproval_encApproval (a : PayrollApproval) :
    decApproval (encApproval a) = some a := by
  obtain ⟨en, ad, w, stt, mw⟩ := a
  simp [encApproval, decApproval, Nat.unpair_pair, decQ_encQ, decStatus_encStatus,
    decString_encString]

/-- Packing inverts the `PayrollApproval` decoding where the latter succeeds. -/
theorem encApproval_decApproval {n : Nat} {a : PayrollApproval}
    (h : decApproval n = some a) : encApproval a = n := by
  simp only [decApproval, Option.bind_eq_some] at h
  obtain ⟨w, hw, stt, hstt, mw, hmw, ha⟩ := h
  obtain rfl := Option.some.inj ha
  simp [encApproval, encQ_decQ hw, encStatus_decStatus hstt, encString_decString hmw,
    Nat.pair_unpair]

/-- The digit string of any natural number is canonical. -/
theorem canonicalBytes_natToBytes (n : Nat) : canonicalBytes (natToBytes n) := by
  constructor
  · intro b hb
    exact Nat.digits_lt_base (by norm_num) hb
  · rcases Nat.eq_zero_or_pos n with h0 | hpos
    · subst h0
      simp [natToBytes]
    · have hne : n ≠ 0 := by omega
      have h1 : Nat.digits 256 n ≠ [] := Nat.digits_ne_nil_iff_ne_zero.mpr hne
      rw [natToBytes, List.getLast?_eq_getLast _ h1]
      intro hcon
      exact Nat.getLast_digit_ne_zero 256 hne (Option.some.inj hcon)

/-- Byte parsing inverts byte printing. -/
theorem bytesToNat_natToBytes (n : Nat) : bytesToNat (natToBytes n) = some n := by
  rw [bytesToNat, if_pos (canonicalBytes_natToBytes n), natToBytes, Nat.ofDigits_digits]

/-- Byte printing inverts byte parsing where the latter succeeds. -/
theorem natToBytes_bytesToNat {bytes : List Nat} {n : Nat}
    (h : bytesToNat bytes = some n) : natToBytes n = bytes := by
  unfold bytesToNat at h
  split_ifs at h with hc
  · obtain rfl := Option.some.inj h
    rw [natToBytes]
    refine Nat.digits_ofDigits 256 (by norm_num) bytes hc.1 ?_
    intro hne hlast
    exact hc.2 (by rw [List.getLast?_eq_getLast _ hne, hlast])

/-! ## Operation lemmas
-/

/-- A payload is valid exactly when `add_employee`'s rejection test fails. -/
theorem validPayload_iff (p : EmployeePayload) :
    validPayload p ↔
      ¬(trimIsEmpty p.name = true ∨ p.age = 0 ∨ p.wage_per_hour ≤ 0) := by
  unfold validPayload
  constructor
  · rintro ⟨h1, h2, h3⟩ (hc | hc | hc)
    · rw [h1] at hc
      cases hc
    · exact h2 hc
    · exact absurd h3 (not_lt.mpr hc)
  · intro h
    push_neg at h
    obtain ⟨h1, h2, h3⟩ := h
    exact ⟨Bool.eq_false_iff.mpr h1, h2, h3⟩

/-- On a valid payload, `add_employee` mints the pre-increment counter value
as the nip, stores the record there and bumps the counter. -/
theorem add_employee_valid_eq {now : Nat} {p : EmployeePayload} {st : State}
    (h : validPayload p) :
    add_employee now p st =
      (Except.ok (mkEmployee now p st.counter),
       { st with
           counter := st.counter + 1
           employees := insertEmp st.counter (mkEmployee now p st.counter) st.employees }) := by
  unfold add_employee
  rw [if_neg ((validPayload_iff p).mp h)]
  rfl

/-- On an invalid payload, `add_employee` rejects and leaves the state alone. -/
theorem add_employee_invalid_eq {now : Nat} {p : EmployeePayload} {st : State}
    (h : ¬validPayload p) :
    add_employee now p st =
      (Except.error (Err.InvalidInput "Invalid employee data"), st) := by
  have hc : trimIsEmpty p.name = true ∨ p.age = 0 ∨ p.wage_per_hour ≤ 0 := by
    by_contra hc
    exact h ((validPayload_iff p).mpr hc)
  unfold add_employee
  rw [if_pos hc]

/-- Running a batch of valid `add_employee` calls advances the counter by the
batch length and returns the consecutive ids starting at the initial counter. -/
theorem runAdds_counter_ids (calls : List (Nat × EmployeePayload)) :
    ∀ st : State, (∀ c ∈ calls, validPayload c.2) →
      (runAdds st calls).1.counter = st.counter + calls.length ∧
      (runAdds st calls).2 = (List.range calls.length).map (fun i => st.counter + i) := by
  induction calls with
  | nil =>
    intro st _
    simp [runAdds]
  | cons c rest ih =>
    intro st h
    obtain ⟨now, p⟩ := c
    have hp : validPayload p := h _ (List.mem_cons_self _ _)
    have hrest : ∀ x ∈ rest, validPayload x.2 := fun x hx => h x (List.mem_cons_of_mem _ hx)
    rw [runAdds, add_employee_valid_eq hp]
    simp only []
    obtain ⟨ihc, ihi⟩ := ih _ hrest
    constructor
    · simp only [List.length_cons]
      rw [ihc]
      dsimp only []
      omega
    · rw [ihi]
      dsimp only []
      rw [List.length_cons, List.range_succ_eq_map, List.map_cons, List.map_map]
      have hfun : ((fun i => st.counter + i) ∘ Nat.succ) = fun i => st.counter + 1 + i := by
        funext i
        show st.counter + (i + 1) = st.counter + 1 + i
        omega
      rw [hfun]
      simp [mkEmployee]

/-- On a known employee and a positive derived working time,
`record_attendance` stores the computed record under (nip, today). -/
theorem record_attendance_ok_eq {now nip ci co : Nat} {st : State} {emp : Employee}
    (hemp : st.employees nip = some emp)
    (hpos : ¬ calculate_work_hours ci co ≤ 0) :
    record_attendance now nip ci co st =
      (Except.ok (mkAttendance ci co emp),
       { st with
           attendance := insertAtt (nip, now / nanosPerDay) (mkAttendance ci co emp)
             st.attendance }) := by
  unfold record_attendance
  rw [hemp]
  simp only []
  rw [if_neg hpos]
  rfl

/-- `record_attendance` never touches the employee map, the approval map or
the id counter. -/
theorem record_attendance_frame (now nip ci co : Nat) (st : State) :
    ((record_attendance now nip ci co st).2).employees = st.employees ∧
    ((record_attendance now nip ci co st).2).approvals = st.approvals ∧
    ((record_attendance now nip ci co st).2).counter = st.counter := by
  unfold record_attendance
  cases st.employees nip with
  | none => exact ⟨rfl, rfl, rfl⟩
  | some emp =>
    dsimp only []
    split_ifs with h
    · exact ⟨rfl, rfl, rfl⟩
    · exact ⟨rfl, rfl, rfl⟩

/-! ## The claims
-/

/-- C1: for every sequence of `add_employee` calls with valid payloads
(non-empty trimmed name, nonzero age, positive wage), the returned nips are
strictly increasing across successive calls, starting at 0 from a fresh
state; each nip is the pre-increment value of the persistent counter, which
is incremented by 1 on every successful call. -/
theorem c1_add_employee_ids :
    (∀ (now : Nat) (p : EmployeePayload) (st : State), validPayload p →
       (add_employee now p st).1 = Except.ok (mkEmployee now p st.counter) ∧
       (mkEmployee now p st.counter).nip = st.counter ∧
       ((add_employee now p st).2).counter = st.counter + 1) ∧
    (∀ calls : List (Nat × EmployeePayload), (∀ c ∈ calls, validPayload c.2) →
       (runAdds initState calls).2 = List.range calls.length ∧
       List.Pairwise (· < ·) (runAdds initState calls).2) := by
  constructor
  · intro now p st h
    rw [add_employee_valid_eq h]
    exact ⟨rfl, rfl, rfl⟩
  · intro calls h
    obtain ⟨_, hids⟩ := runAdds_counter_ids calls initState h
    have hzero : (fun i => initState.counter + i) = (id : Nat → Nat) := by
      funext i
      show 0 + i = i
      omega
    rw [hids, hzero, List.map_id]
    exact ⟨rfl, List.pairwise_lt_range _⟩

/-- C1 witness: two concrete valid calls from the fresh state yield the ids
0 and 1. -/
theorem c1_witness :
    (runAdds initState [(5, payloadA), (7, payloadA)]).2 = List.range 2 ∧
    List.Pairwise (· < ·) (runAdds initState [(5, payloadA), (7, payloadA)]).2 :=
  c1_add_employee_ids.2 [(5, payloadA), (7, payloadA)] (by decide)

/-- C2 counterexample: `record_attendance` with `check_out ≤ check_in` does
NOT always yield `InvalidInput`: for an unknown nip (here nip 0 in the fresh
state) the employee lookup runs first and the call yields `NotFound`. -/
theorem c2_counterexample :
    (3 : Nat) ≤ 5 ∧
    isInvalidInput (record_attendance 0 0 5 3 initState).1 = false ∧
    isNotFound (record_attendance 0 0 5 3 initState).1 = true :=
  ⟨by decide, by decide, by decide⟩

/-- C2 (amended): for a KNOWN employee, `record_attendance` with
`check_out ≤ check_in` yields `InvalidInput`; for an unknown nip it yields
`NotFound` whatever the times; for a known employee and
`check_out > check_in` it returns a record with
`total_hours = (check_out - check_in) / (1000*60*60) > 0` and
`daily_wage = total_hours * wage_per_hour` of the stored employee. -/
theorem c2_record_attendance_amended :
    ∀ (now nip check_in check_out : Nat) (st : State),
      (st.employees nip = none →
        isNotFound (record_attendance now nip check_in check_out st).1 = true) ∧
      (∀ emp, st.employees nip = some emp → check_out ≤ check_in →
        (record_attendance now nip check_in check_out st).1 =
          Except.error (Err.InvalidInput "Invalid check-in or check-out time")) ∧
      (∀ emp, st.employees nip = some emp → check_in < check_out →
        (record_attendance now nip check_in check_out st).1 =
          Except.ok
            { check_in := check_in
              check_out := check_out
              total_hours := ((check_out - check_in : Nat) : ℚ) / (1000 * 60 * 60)
              daily_wage :=
                ((check_out - check_in : Nat) : ℚ) / (1000 * 60 * 60) * emp.wage_per_hour } ∧
        0 < ((check_out - check_in : Nat) : ℚ) / (1000 * 60 * 60)) := by
  intro now nip check_in check_out st
  refine ⟨?_, ?_, ?_⟩
  · intro h
    unfold record_attendance
    rw [h]
    rfl
  · intro emp h hle
    have h0 : calculate_work_hours check_in check_out = 0 := by
      rw [calculate_work_hours, if_pos hle]
    unfold record_attendance
    rw [h]
    simp only []
    rw [h0, if_pos le_rfl]
  · intro emp h hlt
    have hpos : 0 < ((check_out - check_in : Nat) : ℚ) / (1000 * 60 * 60) := by
      apply div_pos
      · exact_mod_cast Nat.sub_pos_of_lt hlt
      · norm_num
    have hwh : calculate_work_hours check_in check_out =
        ((check_out - check_in : Nat) : ℚ) / (1000 * 60 * 60) := by
      rw [calculate_work_hours, if_neg (by omega)]
    refine ⟨?_, hpos⟩
    unfold record_attendance
    rw [h]
    simp only []
    rw [hwh, if_neg (not_le.mpr hpos)]
    rfl

/-- C2 witness: on the state holding employee `empA` (wage 10), a call with
`check_out = 3 ≤ 5 = check_in` yields `InvalidInput`, and a call with one
positive hour-unit span returns the computed record with positive hours. -/
theorem c2_witness :
    (record_attendance 0 0 5 3 stA).1 =
      Except.error (Err.InvalidInput "Invalid check-in or check-out time") ∧
    (record_attendance 0 0 0 3600000 stA).1 =
      Except.ok
        { check_in := 0
          check_out := 3600000
          total_hours := ((3600000 - 0 : Nat) : ℚ) / (1000 * 60 * 60)
          daily_wage :=
            ((3600000 - 0 : Nat) : ℚ) / (1000 * 60 * 60) * empA.wage_per_hour } ∧
    0 < ((3600000 - 0 : Nat) : ℚ) / (1000 * 60 * 60) := by
  refine ⟨(c2_record_attendance_amended 0 0 5 3 stA).2.1 empA (by decide) (by decide),
    ?_, ?_⟩
  · exact ((c2_record_attendance_amended 0 0 0 3600000 stA).2.2 empA (by decide)
      (by decide)).1
  · exact ((c2_record_attendance_amended 0 0 0 3600000 stA).2.2 empA (by decide)
      (by decide)).2

/-- C3: `request_approval` rejects a malformed wallet with `InvalidWallet`
before even looking at the attendance store; with a well-formed wallet it
yields `NotFound` and stores nothing when no attendance exists for
(nip, today), and otherwise stores and returns a Pending approval whose
`wage_amount` is the attendance's `daily_wage` (overwriting any approval
already stored for that day). -/
theorem c3_request_approval :
    ∀ (validW : String → Bool) (now nip : Nat) (w : String) (st : State),
      (validW w = false →
        request_approval validW now nip w st =
          (Except.error (Err.InvalidWallet "Invalid wallet address format"), st)) ∧
      (validW w = true → st.attendance (nip, now / nanosPerDay) = none →
        isNotFound (request_approval validW now nip w st).1 = true ∧
        (request_approval validW now nip w st).2 = st) ∧
      (∀ att, validW w = true → st.attendance (nip, now / nanosPerDay) = some att →
        request_approval validW now nip w st =
          (Except.ok (mkApproval nip (now / nanosPerDay) att w),
           { st with
               approvals := insertApp (nip, now / nanosPerDay)
                 (mkApproval nip (now / nanosPerDay) att w) st.approvals }) ∧
        ((request_approval validW now nip w st).2).approvals (nip, now / nanosPerDay) =
          some (mkApproval nip (now / nanosPerDay) att w)) := by
  intro validW now nip w st
  refine ⟨?_, ?_, ?_⟩
  · intro h
    unfold request_approval validate_wallet
    rw [if_neg (by rw [h]; exact Bool.false_ne_true)]
  · intro hw hatt
    unfold request_approval validate_wallet
    rw [if_pos hw]
    simp only []
    rw [hatt]
    exact ⟨rfl, rfl⟩
  · intro att hw hatt
    have heq : request_approval validW now nip w st =
        (Except.ok (mkApproval nip (now / nanosPerDay) att w),
         { st with
             approvals := insertApp (nip, now / nanosPerDay)
               (mkApproval nip (now / nanosPerDay) att w) st.approvals }) := by
      unfold request_approval validate_wallet
      rw [if_pos hw]
      simp only []
      rw [hatt]
      rfl
    refine ⟨heq, ?_⟩
    rw [heq]
    simp [insertApp]

/-- C3 witness: with attendance `attA` recorded for (0, day 0), a failing
wallet check yields `InvalidWallet` untouched state, a missing attendance
(nip 1) yields `NotFound`, and a successful request stores the Pending
approval carrying `attA.daily_wage`. -/
theorem c3_witness :
    request_approval (fun _ => false) 0 0 "m" stB =
      (Except.error (Err.InvalidWallet "Invalid wallet address format"), stB) ∧
    isNotFound (request_approval (fun _ => true) 0 1 "m" stB).1 = true ∧
    ((request_approval (fun _ => true) 0 0 "m" stB).2).approvals (0, 0 / nanosPerDay) =
      some (mkApproval 0 (0 / nanosPerDay) attA "m") := by
  refine ⟨(c3_request_approval (fun _ => false) 0 0 "m" stB).1 rfl, ?_, ?_⟩
  · exact ((c3_request_approval (fun _ => true) 0 1 "m" stB).2.1 rfl (by decide)).1
  · exact ((c3_request_approval (fun _ => true) 0 0 "m" stB).2.2 attA rfl (by decide)).2

/-- C4: `approve_payroll` on an unknown (nip, date) key yields `NotFound`
and stores nothing; on a stored approval — whatever its current status —
it sets the status to Approved when the flag is true and Rejected when
false, persists the updated record and returns it. -/
theorem c4_approve_payroll :
    ∀ (nip date : Nat) (approved : Bool) (st : State),
      (st.approvals (nip, date) = none →
        isNotFound (approve_payroll nip date approved st).1 = true ∧
        (approve_payroll nip date approved st).2 = st) ∧
      (∀ apr, st.approvals (nip, date) = some apr →
        approve_payroll nip date approved st =
          (Except.ok
            { apr with
                status :=
                  if approved then ApprovalStatus.Approved else ApprovalStatus.Rejected },
           { st with
               approvals := insertApp (nip, date)
                 { apr with
                     status :=
                       if approved then ApprovalStatus.Approved
                       else ApprovalStatus.Rejected } st.approvals }) ∧
        ((approve_payroll nip date approved st).2).approvals (nip, date) =
          some
            { apr with
                status :=
                  if approved then ApprovalStatus.Approved
                  else ApprovalStatus.Rejected }) := by
  intro nip date approved st
  constructor
  · intro h
    unfold approve_payroll
    rw [h]
    exact ⟨rfl, rfl⟩
  · intro apr h
    have heq : approve_payroll nip date approved st =
        (Except.ok
          { apr with
              status :=
                if approved then ApprovalStatus.Approved else ApprovalStatus.Rejected },
         { st with
             approvals := insertApp (nip, date)
               { apr with
                   status :=
                     if approved then ApprovalStatus.Approved
                     else ApprovalStatus.Rejected } st.approvals }) := by
      unfold approve_payroll
      rw [h]
    refine ⟨heq, ?_⟩
    rw [heq]
    simp [insertApp]

/-- C4 witness: on a stored approval that is already Rejected, approving
with flag `true` flips it to Approved and persists it (no terminal lock);
an unknown key (date 9) yields `NotFound`. -/
theorem c4_witness :
    (isNotFound (approve_payroll 0 9 true stD).1 = true ∧
      (approve_payroll 0 9 true stD).2 = stD) ∧
    ((approve_payroll 0 0 true stD).2).approvals (0, 0) =
      some { aprRej with status := if true then ApprovalStatus.Approved
                                   else ApprovalStatus.Rejected } := by
  refine ⟨(c4_approve_payroll 0 9 true stD).1 (by decide), ?_⟩
  exact ((c4_approve_payroll 0 0 true stD).2 aprRej (by decide)).2

/-- C5: every successful `record_attendance` stores its record under the key
(nip, now / nanosPerDay) derived from the clock at call time, and touches no
other day's key — in particular an attendance whose `check_in` lies in a
previous day is still stored under the current day's key. -/
theorem c5_attendance_day_key :
    ∀ (now nip check_in check_out : Nat) (st : State) (a : Attendance),
      (record_attendance now nip check_in check_out st).1 = Except.ok a →
      ((record_attendance now nip check_in check_out st).2).attendance
          (nip, now / nanosPerDay) = some a ∧
      (∀ d, d ≠ now / nanosPerDay →
        ((record_attendance now nip check_in check_out st).2).attendance (nip, d) =
          st.attendance (nip, d)) := by
  intro now nip check_in check_out st a h
  cases hemp : st.employees nip with
  | none =>
    rw [record_attendance, hemp] at h
    cases h
  | some emp =>
    by_cases hth : calculate_work_hours check_in check_out ≤ 0
    · rw [record_attendance, hemp] at h
      simp only [] at h
      rw [if_pos hth] at h
      cases h
    · rw [record_attendance_ok_eq hemp hth] at h ⊢
      obtain rfl := Except.ok.inj h
      constructor
      · simp [insertAtt]
      · intro d hd
        simp only [insertAtt]
        rw [if_neg]
        intro hc
        exact hd (congrArg Prod.snd hc)

/-- C5 witness: a call at clock time `nanosPerDay` (day 1) whose `check_in`
is 0 (day 0) stores the record under day 1 and leaves day 0 empty. -/
theorem c5_witness :
    ((record_attendance nanosPerDay 0 0 3600000 stA).2).attendance (0, 1) = some attA ∧
    ((record_attendance nanosPerDay 0 0 3600000 stA).2).attendance (0, 0) = none := by
  have hday : nanosPerDay / nanosPerDay = 1 := by
    norm_num [nanosPerDay]
  have h : (record_attendance nanosPerDay 0 0 3600000 stA).1 = Except.ok attA := by
    simp [record_attendance, stA, insertEmp, empA, attA, calculate_work_hours,
      calculate_daily_wage, nanosPerDay]
    norm_num
  have h2 := c5_attendance_day_key nanosPerDay 0 0 3600000 stA attA h
  constructor
  · have := h2.1
    rwa [hday] at this
  · have := h2.2 0 (by rw [hday]; exact Nat.zero_ne_one)
    rw [this]
    rfl

/-- C6: two successful `record_attendance` calls for the same employee within
the same day overwrite: a read of the (nip, day) key after the second call
returns the second call's check-in, check-out, derived hours and derived
wage, not the first's (last-write-wins). -/
theorem c6_attendance_overwrite :
    ∀ (now1 now2 nip ci1 co1 ci2 co2 : Nat) (st : State) (emp : Employee)
      (a1 a2 : Attendance),
      st.employees nip = some emp →
      now1 / nanosPerDay = now2 / nanosPerDay →
      (record_attendance now1 nip ci1 co1 st).1 = Except.ok a1 →
      (record_attendance now2 nip ci2 co2
          ((record_attendance now1 nip ci1 co1 st).2)).1 = Except.ok a2 →
      ((record_attendance now2 nip ci2 co2
          ((record_attendance now1 nip ci1 co1 st).2)).2).attendance
        (nip, now2 / nanosPerDay) = some a2 ∧
      a2.check_in = ci2 ∧ a2.check_out = co2 ∧
      a2.total_hours = calculate_work_hours ci2 co2 ∧
      a2.daily_wage =
        calculate_daily_wage (calculate_work_hours ci2 co2) emp.wage_per_hour := by
  intro now1 now2 nip ci1 co1 ci2 co2 st emp a1 a2 hemp hday h1 h2
  have hemp1 : ((record_attendance now1 nip ci1 co1 st).2).employees nip = some emp := by
    rw [congrFun (record_attendance_frame now1 nip ci1 co1 st).1 nip]
    exact hemp
  by_cases hth : calculate_work_hours ci2 co2 ≤ 0
  · rw [record_attendance, hemp1] at h2
    simp only [] at h2
    rw [if_pos hth] at h2
    cases h2
  · rw [record_attendance_ok_eq hemp1 hth] at h2 ⊢
    obtain rfl := Except.ok.inj h2
    refine ⟨?_, rfl, rfl, rfl, rfl⟩
    simp [insertAtt]

/-- C6 witness: on employee `empA`, a two-hour first call then a one-hour
second call on the same day leave exactly the one-hour record `attA` stored
for (0, day 0). -/
theorem c6_witness :
    ((record_attendance 0 0 0 3600000 ((record_attendance 0 0 0 7200000 stA).2)).2).attendance
        (0, 0 / nanosPerDay) = some attA ∧
    attA.check_in = 0 ∧ attA.check_out = 3600000 ∧
    attA.total_hours = calculate_work_hours 0 3600000 ∧
    attA.daily_wage =
      calculate_daily_wage (calculate_work_hours 0 3600000) empA.wage_per_hour := by
  have h1 : (record_attendance 0 0 0 7200000 stA).1 = Except.ok att1 := by
    simp [record_attendance, stA, insertEmp, empA, att1, calculate_work_hours,
      calculate_daily_wage, nanosPerDay]
    norm_num
  have hpos1 : ¬ calculate_work_hours 0 7200000 ≤ 0 := by
    norm_num [calculate_work_hours]
  have hatt1 : mkAttendance 0 7200000 empA = att1 := by
    norm_num [mkAttendance, calculate_work_hours, calculate_daily_wage, empA, att1]
  have hst1 : (record_attendance 0 0 0 7200000 stA).2 =
      { stA with attendance := insertAtt (0, 0 / nanosPerDay) att1 stA.attendance } := by
    rw [record_attendance_ok_eq (by decide : stA.employees 0 = some empA) hpos1, hatt1]
  have h2 : (record_attendance 0 0 0 3600000 ((record_attendance 0 0 0 7200000 stA).2)).1 =
      Except.ok attA := by
    rw [hst1]
    simp [record_attendance, stA, insertEmp, insertAtt, empA, att1, attA,
      calculate_work_hours, calculate_daily_wage, nanosPerDay]
    norm_num
  exact c6_attendance_overwrite 0 0 0 0 7200000 0 3600000 stA empA att1 attA
    (by decide) rfl h1 h2

/-- C7: for each of the three record types the store serialization
round-trips: decoding an encoded record yields the record back, and
re-encoding any successfully decoded byte string yields the identical byte
string, for everything within the 2048-byte bound. -/
theorem c7_storable_roundtrip :
    (∀ e : Employee, (toBytesEmployee e).length ≤ 2048 →
       fromBytesEmployee (toBytesEmployee e) = some e) ∧
    (∀ (bytes : List Nat) (e : Employee), bytes.length ≤ 2048 →
       fromBytesEmployee bytes = some e → toBytesEmployee e = bytes) ∧
    (∀ a : Attendance, (toBytesAttendance a).length ≤ 2048 →
       fromBytesAttendance (toBytesAttendance a) = some a) ∧
    (∀ (bytes : List Nat) (a : Attendance), bytes.length ≤ 2048 →
       fromBytesAttendance bytes = some a → toBytesAttendance a = bytes) ∧
    (∀ a : PayrollApproval, (toBytesApproval a).length ≤ 2048 →
       fromBytesApproval (toBytesApproval a) = some a) ∧
    (∀ (bytes : List Nat) (a : PayrollApproval), bytes.length ≤ 2048 →
       fromBytesApproval bytes = some a → toBytesApproval a = bytes) := by
  refine ⟨?_, ?_, ?_, ?_, ?_, ?_⟩
  · intro e _
    unfold fromBytesEmployee toBytesEmployee
    rw [bytesToNat_natToBytes, Option.some_bind]
    exact decEmployee_encEmployee e
  · intro bytes e _ h
    unfold fromBytesEmployee at h
    rw [Option.bind_eq_some] at h
    obtain ⟨n, hb, hd⟩ := h
    unfold toBytesEmployee
    rw [encEmployee_decEmployee hd]
    exact natToBytes_bytesToNat hb
  · intro a _
    unfold fromBytesAttendance toBytesAttendance
    rw [bytesToNat_natToBytes, Option.some_bind]
    exact decAttendance_encAttendance a
  · intro bytes a _ h
    unfold fromBytesAttendance at h
    rw [Option.bind_eq_some] at h
    obtain ⟨n, hb, hd⟩ := h
    unfold toBytesAttendance
    rw [encAttendance_decAttendance hd]
    exact natToBytes_bytesToNat hb
  · intro a _
    unfold fromBytesApproval toBytesApproval
    rw [bytesToNat_natToBytes, Option.some_bind]
    exact decApproval_encApproval a
  · intro bytes a _ h
    unfold fromBytesApproval at h
    rw [Option.bind_eq_some] at h
    obtain ⟨n, hb, hd⟩ := h
    unfold toBytesApproval
    rw [encApproval_decApproval hd]
    exact natToBytes_bytesToNat hb

/-- C7 witness: the all-default records round-trip concretely; their byte
strings are `[0, 0, 1]`, `[81]` and `[16]`. -/
theorem c7_witness :
    fromBytesEmployee (toBytesEmployee empZero) = some empZero ∧
    toBytesEmployee empZero = [0, 0, 1] ∧
    fromBytesAttendance (toBytesAttendance attZero) = some attZero ∧
    toBytesAttendance attZero = [81] ∧
    fromBytesApproval (toBytesApproval aprZero) = some aprZero ∧
    toBytesApproval aprZero = [16] := by
  have hbe : toBytesEmployee empZero = [0, 0, 1] := by
    rw [toBytesEmployee, natToBytes, show encEmployee empZero = 65536 from by decide]
    norm_num [Nat.digits_def']
  have hba : toBytesAttendance attZero = [81] := by
    rw [toBytesAttendance, natToBytes, show encAttendance attZero = 81 from by decide]
    norm_num [Nat.digits_def']
  have hbp : toBytesApproval aprZero = [16] := by
    rw [toBytesApproval, natToBytes, show encApproval aprZero = 16 from by decide]
    norm_num [Nat.digits_def']
  refine ⟨?_, ?_, ?_, ?_, ?_, ?_⟩
  · exact c7_storable_roundtrip.1 empZero (by rw [hbe]; decide)
  · refine c7_storable_roundtrip.2.1 [0, 0, 1] empZero (by decide) ?_
    rw [← hbe]
    exact c7_storable_roundtrip.1 empZero (by rw [hbe]; decide)
  · exact c7_storable_roundtrip.2.2.1 attZero (by rw [hba]; decide)
  · refine c7_storable_roundtrip.2.2.2.1 [81] attZero (by decide) ?_
    rw [← hba]
    exact c7_storable_roundtrip.2.2.1 attZero (by rw [hba]; decide)
  · exact c7_storable_roundtrip.2.2.2.2.1 aprZero (by rw [hbp]; decide)
  · refine c7_storable_roundtrip.2.2.2.2.2 [16] aprZero (by decide) ?_
    rw [← hbp]
    exact c7_storable_roundtrip.2.2.2.2.1 aprZero (by rw [hbp]; decide)

/-- C8: every payload accepted by `add_employee`'s validation (which
rejects exactly empty-trimmed names, age 0 and non-positive wage — so age
is NOT required to be below 60) produces an employee whose `pension_age` is
the `u32` subtraction `60 - age`; when `age ≤ 60` that is the mathematical
`60 - age`, but for every accepted payload with `age > 60` the checked
subtraction underflows — the computation is not total over the accepted
inputs. -/
theorem c8_pension_age :
    (∀ (now : Nat) (p : EmployeePayload) (st : State),
       isErr (add_employee now p st).1 = false ↔ validPayload p) ∧
    (∀ (now : Nat) (p : EmployeePayload) (st : State) (e : Employee),
       (add_employee now p st).1 = Except.ok e →
       e.pension_age = u32Sub 60 p.age ∧
       (p.age ≤ 60 → e.pension_age = 60 - p.age ∧
         u32CheckedSub 60 p.age = some (60 - p.age)) ∧
       (60 < p.age → u32CheckedSub 60 p.age = none)) := by
  constructor
  · intro now p st
    by_cases h : validPayload p
    · rw [add_employee_valid_eq h]
      simp [isErr, h]
    · rw [add_employee_invalid_eq h]
      simp [isErr, h]
  · intro now p st e h
    by_cases hv : validPayload p
    · rw [add_employee_valid_eq hv] at h
      obtain rfl := Except.ok.inj h
      refine ⟨rfl, ?_, ?_⟩
      · intro hle
        constructor
        · show u32Sub 60 p.age = 60 - p.age
          unfold u32Sub
          omega
        · rw [u32CheckedSub, if_pos hle]
      · intro hgt
        rw [u32CheckedSub, if_neg (by omega)]
    · rw [add_employee_invalid_eq hv] at h
      cases h

/-- C8 witness: the payload with age 61 is accepted by the validation, the
minted employee carries the wrapped value `u32Sub 60 61 = 2^32 - 1`, and the
checked subtraction reports underflow. -/
theorem c8_witness :
    (isErr (add_employee 0 pAge61 initState).1 = false) ∧
    empB61.pension_age = u32Sub 60 pAge61.age ∧
    u32CheckedSub 60 pAge61.age = none := by
  refine ⟨(c8_pension_age.1 0 pAge61 initState).mpr (by decide), ?_, ?_⟩
  · exact (c8_pension_age.2 0 pAge61 initState empB61 (by decide)).1
  · exact (c8_pension_age.2 0 pAge61 initState empB61 (by decide)).2.2 (by decide)

/-- C9: once an approval is stored, `approve_payroll` changes only its
`status`: the returned and persisted record keeps the stored `employee_nip`,
`attendance_date`, `wage_amount` and `manager_wallet`; and a later
`record_attendance` (overwriting the day's attendance) never touches the
approval store, so the approval's `wage_amount` remains the `daily_wage`
copied at request time. -/
theorem c9_approval_frame :
    (∀ (nip date : Nat) (approved : Bool) (st : State) (apr apr2 : PayrollApproval),
       st.approvals (nip, date) = some apr →
       (approve_payroll nip date approved st).1 = Except.ok apr2 →
       apr2.employee_nip = apr.employee_nip ∧
       apr2.attendance_date = apr.attendance_date ∧
       apr2.wage_amount = apr.wage_amount ∧
       apr2.manager_wallet = apr.manager_wallet ∧
       apr2.status = (if approved then ApprovalStatus.Approved
                      else ApprovalStatus.Rejected) ∧
       ((approve_payroll nip date approved st).2).approvals (nip, date) = some apr2) ∧
    (∀ (now nip check_in check_out : Nat) (st : State),
       ((record_attendance now nip check_in check_out st).2).approvals =
         st.approvals) := by
  constructor
  · intro nip date approved st apr apr2 hstore h
    rw [approve_payroll, hstore] at h ⊢
    simp only [] at h ⊢
    obtain rfl := Except.ok.inj h
    exact ⟨rfl, rfl, rfl, rfl, rfl, by simp [insertApp]⟩
  · intro now nip check_in check_out st
    exact (record_attendance_frame now nip check_in check_out st).2.1

/-- C9 witness: rejecting the stored approval `aprA` keeps its nip, date,
wage and wallet and only flips the status; and recording a fresh attendance
leaves the approval store of `stC` untouched. -/
theorem c9_witness :
    aprRej.employee_nip = aprA.employee_nip ∧
    aprRej.attendance_date = aprA.attendance_date ∧
    aprRej.wage_amount = aprA.wage_amount ∧
    aprRej.manager_wallet = aprA.manager_wallet ∧
    aprRej.status = (if false then ApprovalStatus.Approved
                     else ApprovalStatus.Rejected) ∧
    ((approve_payroll 0 0 false stC).2).approvals (0, 0) = some aprRej ∧
    ((record_attendance 0 0 0 3600000 stC).2).approvals = stC.approvals := by
  have h := c9_approval_frame.1 0 0 false stC aprA aprRej (by decide) (by decide)
  exact ⟨h.1, h.2.1, h.2.2.1, h.2.2.2.1, h.2.2.2.2.1, h.2.2.2.2.2,
    c9_approval_frame.2 0 0 0 3600000 stC⟩

/-- C10: every operation is atomic on error: whenever `add_employee`,
`record_attendance`, `request_approval` or `approve_payroll` returns an
error, the whole state — the id counter and the three stores — is
unchanged; in particular a rejected `add_employee` does not consume an id. -/
theorem c10_error_atomicity :
    ∀ st : State,
      (∀ (now : Nat) (p : EmployeePayload),
        isErr (add_employee now p st).1 = true → (add_employee now p st).2 = st) ∧
      (∀ (now nip check_in check_out : Nat),
        isErr (record_attendance now nip check_in check_out st).1 = true →
        (record_attendance now nip check_in check_out st).2 = st) ∧
      (∀ (validW : String → Bool) (now nip : Nat) (w : String),
        isErr (request_approval validW now nip w st).1 = true →
        (request_approval validW now nip w st).2 = st) ∧
      (∀ (nip date : Nat) (approved : Bool),
        isErr (approve_payroll nip date approved st).1 = true →
        (approve_payroll nip date approved st).2 = st) := by
  intro st
  refine ⟨?_, ?_, ?_, ?_⟩
  · intro now p h
    by_cases hv : validPayload p
    · rw [add_employee_valid_eq hv] at h
      cases h
    · rw [add_employee_invalid_eq hv]
  · intro now nip check_in check_out h
    unfold record_attendance at h ⊢
    cases hemp : st.employees nip with
    | none => rfl
    | some emp =>
      rw [hemp] at h
      dsimp only [] at h ⊢
      split_ifs at h ⊢ with hth
      · rfl
      · simp [isErr] at h
  · intro validW now nip w h
    unfold request_approval validate_wallet at h ⊢
    by_cases hw : validW w = true
    · rw [if_pos hw] at h ⊢
      dsimp only [] at h ⊢
      cases hatt : st.attendance (nip, now / nanosPerDay) with
      | none => rfl
      | some att =>
        rw [hatt] at h
        simp [isErr] at h
    · rw [if_neg hw]
  · intro nip date approved h
    unfold approve_payroll at h ⊢
    cases happ : st.approvals (nip, date) with
    | none => rfl
    | some apr =>
      rw [happ] at h
      simp [isErr] at h

/-- C10 witness: four concrete erroring calls (invalid payload, unknown
employee, rejected wallet, unknown approval key) each leave the fresh state
exactly as it was. -/
theorem c10_witness :
    (add_employee 0 badPayload initState).2 = initState ∧
    (record_attendance 0 0 5 3 initState).2 = initState ∧
    (request_approval (fun _ => false) 0 0 "m" initState).2 = initState ∧
    (approve_payroll 0 0 true initState).2 = initState :=
  ⟨(c10_error_atomicity initState).1 0 badPayload (by decide),
   (c10_error_atomicity initState).2.1 0 0 5 3 (by decide),
   (c10_error_atomicity initState).2.2.1 (fun _ => false) 0 0 "m" (by decide),
   (c10_error_atomicity initState).2.2.2 0 0 true (by decide)⟩

end ICP
